import Mathlib

/-
Verification of the 2D terrain generator (src/terrain.py, src/utils.py).

The development shallowly embeds the program:

* Python exceptions become an explicit error type `Err`; fallible code
  returns `Except Err _`.
* Python/numpy floating point is idealised as exact rationals extended
  with a NaN element (`PyF`).  IEEE rounding and infinities are not
  modelled; in this program the only division is `segment_vector / norm`
  whose divisor is zero exactly when the numerator components are zero,
  so the only reachable non-finite outcome is 0/0, which IEEE (and
  numpy) evaluates to NaN *without raising an exception*.  Crucially,
  numpy elementwise division of an array by the zero scalar does not
  raise `ZeroDivisionError` (only pure-Python scalar division does); it
  emits a RuntimeWarning and produces NaN entries.  The dead
  `except ZeroDivisionError` branch of `random_perpendicular_point` is
  therefore not an error path of the model.
* `np.linalg.norm` (an irrational square root) and `random.uniform`
  (the random draw) are external library calls; the embedding passes
  their results as explicit arguments `norm` and `draw`.  Theorems
  constrain them by their defining properties:
  `norm * norm = normSq start endp`, `0 ≤ norm`, and
  `-alpha ≤ draw ≤ alpha` with `alpha = (norm // 2.3) * roughtness`
  exactly as computed by the source.
* The mutable object graph of `Node` instances is a state `GState`:
  the auto-increment id counter, the directed adjacency pairs
  (`(u,v) ∈ edges` means `v ∈ u.connections`), and the memoisation
  dictionary of the `cache_nodes` decorator.  Node coordinates do not
  influence any control flow (`random_perpendicular_point` is total on
  2-vectors, as proved below), so the connectivity state machine does
  not carry them.
* Python `Triangle` objects have object identity; the model carries an
  allocation serial `tid` (drawn from `GState.nextTid`) for each
  constructed triangle, mirroring `id()` distinctness of freshly
  allocated objects.
-/

/- Python exception values, with the text used by `str(e)`. -/
inductive Err where
  | valueError (msg : String)
  | assertionError (msg : String)
  | keyError (msg : String)
  | indexError (msg : String)
  | attributeError (msg : String)
deriving DecidableEq

/- The text interpolated by the f-string `f"...: {e}"`. -/
def Err.text : Err → String
  | .valueError m => m
  | .assertionError m => m
  | .keyError m => m
  | .indexError m => m
  | .attributeError m => m

/- A Python/numpy float, idealised: an exact rational or NaN. -/
inductive PyF where
  | fin (q : ℚ)
  | nan
deriving DecidableEq

def PyF.add : PyF → PyF → PyF
  | .fin a, .fin b => .fin (a + b)
  | _, _ => .nan

def PyF.mul : PyF → PyF → PyF
  | .fin a, .fin b => .fin (a * b)
  | _, _ => .nan

def PyF.neg : PyF → PyF
  | .fin a => .fin (-a)
  | .nan => .nan

/-
IEEE division: 0/0 is NaN, NaN propagates.  (x/0 with x ≠ 0 would be
±inf; in `random_perpendicular_point` the divisor is the Euclidean norm
of the numerator vector, which is zero only when both numerator
components are zero, so that case is unreachable there and the model
folds it into NaN as well.)
-/
def PyF.div : PyF → PyF → PyF
  | .fin a, .fin b => if b = 0 then .nan else .fin (a / b)
  | _, _ => .nan

/- Squared Euclidean length of the segment `endp - start`. -/
def normSq (start endp : ℚ × ℚ) : ℚ :=
  (endp.1 - start.1) ^ 2 + (endp.2 - start.2) ^ 2

/-
`alpha = (norm // 2.3) * roughtness` from the source
(`//` is Python float floor-division; 2.3 is the literal 23/10 in the
exact-rational idealisation).
-/
def alphaOf (norm roughtness : ℚ) : ℚ :=
  ((Rat.floor (norm / (23 / 10)) : ℤ) : ℚ) * roughtness

/-
`random_perpendicular_point(start, end, roughtness)` from src/utils.py.
The shape check `start.shape != (2,)` is discharged by typing (arguments
are pairs).  `norm` stands for `np.linalg.norm(end - start)` and `draw`
for `random.uniform(-alpha, alpha)`; see the header comment.  The
function is total: the `except ZeroDivisionError` branch of the source
is dead because numpy array division never raises it.
-/
def random_perpendicular_point (start endp : ℚ × ℚ) (roughtness : ℚ)
    (norm draw : ℚ) : PyF × PyF :=
  let segment_vector : ℚ × ℚ := (endp.1 - start.1, endp.2 - start.2)
  let unit_segment_vector : PyF × PyF :=
    (PyF.div (.fin segment_vector.1) (.fin norm),
     PyF.div (.fin segment_vector.2) (.fin norm))
  let normal_vector : PyF × PyF :=
    (PyF.neg unit_segment_vector.2, unit_segment_vector.1)
  let midpoint : ℚ × ℚ := ((start.1 + endp.1) / 2, (start.2 + endp.2) / 2)
  (PyF.add (PyF.mul normal_vector.1 (.fin draw)) (.fin midpoint.1),
   PyF.add (PyF.mul normal_vector.2 (.fin draw)) (.fin midpoint.2))

lemma normSq_eq_zero_iff (start endp : ℚ × ℚ) :
    normSq start endp = 0 ↔ start = endp := by
  unfold normSq
  constructor
  · intro h
    have h1 : (endp.1 - start.1) ^ 2 = 0 := by
      nlinarith [sq_nonneg (endp.1 - start.1), sq_nonneg (endp.2 - start.2)]
    have h2 : (endp.2 - start.2) ^ 2 = 0 := by
      nlinarith [sq_nonneg (endp.1 - start.1), sq_nonneg (endp.2 - start.2)]
    have e1 : start.1 = endp.1 := by
      have hz : endp.1 - start.1 = 0 := (pow_eq_zero_iff two_ne_zero).mp h1
      linarith
    have e2 : start.2 = endp.2 := by
      have hz : endp.2 - start.2 = 0 := (pow_eq_zero_iff two_ne_zero).mp h2
      linarith
    exact Prod.ext e1 e2
  · intro h
    subst h
    ring

/-- C2: the claim says the displacement rule fails with
`DegenerateSegmentError` when `start == end`.  The code does not: numpy
division of the zero segment vector by the zero norm yields NaN (the
`except ZeroDivisionError` branch is dead), so the function returns a
NaN point for every roughness and every random draw instead of raising.
This theorem evaluates the embedded code on the degenerate input
(`norm = 0`, since `np.linalg.norm` of the zero vector is exactly 0). -/
theorem c2_degenerate_segment_returns_nan (s : ℚ × ℚ) (roughtness draw : ℚ) :
    random_perpendicular_point s s roughtness 0 draw = (.nan, .nan) := by
  simp [random_perpendicular_point, PyF.div, PyF.neg, PyF.mul, PyF.add]

/-- C7: for two distinct points and roughness 0,
`random_perpendicular_point` returns exactly the exact midpoint
`(start+end)/2`, for every admissible outcome of the random draw
(the draw range `[-alpha, alpha]` collapses to `{0}` because
`alpha = (norm // 2.3) * 0 = 0`). -/
theorem c7_zero_roughness_exact_midpoint (start endp : ℚ × ℚ) (norm draw : ℚ)
    (hne : start ≠ endp) (hnorm : norm * norm = normSq start endp)
    (hlo : -(alphaOf norm 0) ≤ draw) (hhi : draw ≤ alphaOf norm 0) :
    random_perpendicular_point start endp 0 norm draw =
      (.fin ((start.1 + endp.1) / 2), .fin ((start.2 + endp.2) / 2)) := by
  have halpha : alphaOf norm 0 = 0 := by
    unfold alphaOf; ring
  have hdraw : draw = 0 := by
    rw [halpha] at hlo hhi
    linarith
  have hns : normSq start endp ≠ 0 := by
    intro h
    exact hne ((normSq_eq_zero_iff start endp).mp h)
  have hn : norm ≠ 0 := by
    intro h
    rw [h, zero_mul] at hnorm
    exact hns hnorm.symm
  subst hdraw
  simp [random_perpendicular_point, PyF.div, PyF.neg, PyF.mul, PyF.add, hn]

/-- Witness for C7 at the concrete segment (0,0)–(0,1) with norm 1. -/
theorem c7_zero_roughness_exact_midpoint_witness :
    (((0 : ℚ), (0 : ℚ)) ≠ ((0 : ℚ), (1 : ℚ))
      ∧ (1 : ℚ) * 1 = normSq (0, 0) (0, 1)
      ∧ -(alphaOf 1 0) ≤ 0 ∧ (0 : ℚ) ≤ alphaOf 1 0)
    ∧ random_perpendicular_point (0, 0) (0, 1) 0 1 0 =
        (.fin ((0 + 0) / 2), .fin ((0 + 1) / 2)) := by
  refine ⟨⟨?_, ?_, ?_, ?_⟩, ?_⟩
  · simp [Prod.ext_iff]
  · simp [normSq]
  · simp [alphaOf]
  · simp [alphaOf]
  · exact c7_zero_roughness_exact_midpoint (0, 0) (0, 1) 1 0
      (by simp [Prod.ext_iff]) (by simp [normSq]) (by simp [alphaOf]) (by simp [alphaOf])

/-
The connectivity state of the program: the `Node._current_id` counter,
the directed adjacency relation ((u,v) ∈ edges ↔ v ∈ u.connections),
the `cache_nodes` memoisation dictionary of `create_new_node` (keyed by
`tuple(sorted([a.unique_id, b.unique_id]))`), and the allocation
counter modelling object identity of `Triangle` instances.
-/
structure GState where
  nextId : ℕ
  nextTid : ℕ
  edges : Finset (ℕ × ℕ)
  cache : List ((ℕ × ℕ) × ℕ)
deriving DecidableEq

/- `Node(x, y)`: the constructor allocates the next unique id. -/
def newNode (s : GState) : ℕ × GState :=
  (s.nextId + 1, { s with nextId := s.nextId + 1 })

/- `Node.has_connection` (returns a Python bool). -/
def has_connection (s : GState) (a b : ℕ) : Bool :=
  (a, b) ∈ s.edges

/-
`Node.add_connection`: asserts the two nodes differ, then adds the
symmetric adjacency only when not already present.
-/
def add_connection (s : GState) (self other : ℕ) : Except Err GState :=
  if other = self then
    .error (.assertionError ("A node cannot connect to itself."))
  else if (self, other) ∈ s.edges then
    .ok s
  else
    .ok { s with edges := insert (self, other) (insert (other, self) s.edges) }

/-
`Node.remove_connection`: if the edge is absent raises ValueError;
otherwise `self.connections.remove(other)` then
`other.connections.remove(self)` — the second `set.remove` raises
KeyError when the reverse direction is missing (possible only in an
asymmetric adjacency state), leaving the state half-mutated; the model
returns the error (every caller in this program treats it as fatal).
-/
def remove_connection (s : GState) (self other : ℕ) : Except Err GState :=
  if (self, other) ∈ s.edges then
    let s1 : GState := { s with edges := s.edges.erase (self, other) }
    if (other, self) ∈ s1.edges then
      .ok { s1 with edges := s1.edges.erase (other, self) }
    else
      .error (.keyError ("unique_id"))
  else
    .error (.valueError ("No connection exists with the specified node."))

/- `tuple(sorted([a, b]))` — the unordered cache key. -/
def sortPair (a b : ℕ) : ℕ × ℕ :=
  if a ≤ b then (a, b) else (b, a)

/- Lookup in the decorator's dict. -/
def cacheLookup (key : ℕ × ℕ) : List ((ℕ × ℕ) × ℕ) → Option ℕ
  | [] => none
  | e :: es => if key = e.1 then some e.2 else cacheLookup key es

/-
The `try ... except Exception as e: raise ValueError(f"An error
occurred while creating a new node: {e}")` wrapper of
`create_new_node`.
-/
def wrap_create_errors (r : Except Err (ℕ × GState)) : Except Err (ℕ × GState) :=
  match r with
  | .ok v => .ok v
  | .error e =>
      .error (.valueError ("An error occurred while creating a new node: " ++ Err.text e))

/-
The body of the undecorated `create_new_node(node_a, node_b)`:
precondition check, then (inside the try block) the displaced-point
computation (total, see `random_perpendicular_point`), `Node(x, y)`,
the two `add_connection` calls and the `remove_connection` call.
-/
def create_new_node_base (s : GState) (node_a node_b : ℕ) : Except Err (ℕ × GState) :=
  if ¬ has_connection s node_a node_b then
    .error (.valueError ("Nodes must be connected to create a new node between them."))
  else
    wrap_create_errors (do
      let (new_node, s1) := newNode s
      let s2 ← add_connection s1 new_node node_a
      let s3 ← add_connection s2 new_node node_b
      let s4 ← remove_connection s3 node_a node_b
      pure (new_node, s4))

/-
`create_new_node` as the program sees it: the `@cache_nodes` wrapper
around `create_new_node_base`.  On a hit the stored node is returned
with no state change and no connectivity check; on a miss the base
function runs and a successful result is stored under the sorted key.
-/
def create_new_node (s : GState) (node_a node_b : ℕ) : Except Err (ℕ × GState) :=
  let key := sortPair node_a node_b
  match cacheLookup key s.cache with
  | some n => .ok (n, s)
  | none =>
      match create_new_node_base s node_a node_b with
      | .ok (n, s') => .ok (n, { s' with cache := (key, n) :: s'.cache })
      | .error e => .error e

/-
A `Triangle` object: three vertex node ids plus the allocation serial
`tid` modelling Python object identity of the instance.
-/
structure Triangle where
  tid : ℕ
  node_a : ℕ
  node_b : ℕ
  node_c : ℕ
deriving DecidableEq

/- `Triangle.create_edges`: a–b, a–c, b–c, in source order. -/
def Triangle.create_edges (s : GState) (t : Triangle) : Except Err GState := do
  let s1 ← add_connection s t.node_a t.node_b
  let s2 ← add_connection s1 t.node_a t.node_c
  add_connection s2 t.node_b t.node_c

/- `Triangle(a, b, c)`: allocate the object, then `create_edges`. -/
def Triangle.make (s : GState) (a b c : ℕ) : Except Err (Triangle × GState) := do
  let t : Triangle := ⟨s.nextTid, a, b, c⟩
  let s0 : GState := { s with nextTid := s.nextTid + 1 }
  let s1 ← Triangle.create_edges s0 t
  pure (t, s1)

/- `Triangle.subdivide`, returning the list `[t1, t2, t3, t4]`. -/
def Triangle.subdivide (s : GState) (t : Triangle) : Except Err (List Triangle × GState) := do
  let (node_d, s1) ← create_new_node s t.node_a t.node_b
  let (node_e, s2) ← create_new_node s1 t.node_b t.node_c
  let (node_f, s3) ← create_new_node s2 t.node_a t.node_c
  let (triangle_1, s4) ← Triangle.make s3 node_d t.node_b node_e
  let (triangle_2, s5) ← Triangle.make s4 t.node_a node_d node_f
  let (triangle_3, s6) ← Triangle.make s5 node_f node_e t.node_c
  let (triangle_4, s7) ← Triangle.make s6 node_d node_e node_f
  pure ([triangle_1, triangle_2, triangle_3, triangle_4], s7)

/-
A queue element as Python sees it dynamically: either a Triangle or a
Python list of elements (`isinstance(item, list)`).
-/
inductive Item where
  | tri (t : Triangle)
  | list (ts : List Item)

/- The FIFO wrapper around `collections.deque`. -/
structure FIFO where
  items : List Item

/-
`FIFO.enqueue(item, is_list)`: the flattening branch runs only when
`is_list` is set AND the argument is actually a Python list.
-/
def FIFO.enqueue (q : FIFO) (item : Item) (is_list : Bool) : FIFO :=
  if is_list then
    match item with
    | .list xs => ⟨q.items ++ xs⟩
    | .tri _ => ⟨q.items ++ [item]⟩
  else
    ⟨q.items ++ [item]⟩

/- `FIFO.dequeue`: IndexError on an empty queue, else pop the front. -/
def FIFO.dequeue (q : FIFO) : Except Err (Item × FIFO) :=
  match q.items with
  | [] => .error (.indexError ("dequeue from an empty queue"))
  | x :: xs => .ok (x, ⟨xs⟩)

/- `FIFO.size`. -/
def FIFO.size (q : FIFO) : ℕ := q.items.length

/-
The expansion loop of `main` (terrain.py lines 34–37), iterated a given
number of times, additionally collecting the list of triangles that
were dequeued and subdivided (the loop's own dequeue order).  A queue
element that is not a Triangle would fail the attribute lookup
`.subdivide` (AttributeError).
-/
def expandLoop : ℕ → GState → FIFO → List Triangle → Except Err (GState × FIFO × List Triangle)
  | 0, s, q, acc => .ok (s, q, acc)
  | k + 1, s, q, acc => do
      let (it, q1) ← q.dequeue
      match it with
      | .tri t => do
          let (ts, s') ← Triangle.subdivide s t
          expandLoop k s' (q1.enqueue (.list (ts.map Item.tri)) true) (acc ++ [t])
      | .list _ => .error (.attributeError ("list object has no attribute subdivide"))

/-
The per-frame render loop of `main` (terrain.py lines 53–56): for a
fixed iteration count, dequeue the front item, hand it to the external
drawing collaborator (collected in `drawn`; the pixel output is outside
the core, see spec §1), and re-enqueue it with the default
`is_list=False`.
-/
def renderLoop : ℕ → FIFO → List Item → Except Err (FIFO × List Item)
  | 0, q, drawn => .ok (q, drawn)
  | k + 1, q, drawn => do
      let (it, q1) ← q.dequeue
      renderLoop k (q1.enqueue it false) (drawn ++ [it])

/-- C9: for an item that is not a Python list, `enqueue(item, is_list=True)`
appends the item itself as a single element (the flattening branch
requires `isinstance(item, list)`), so dequeuing a previously empty
queue returns that very item. -/
theorem c9_enqueue_nonlist_is_single (q : FIFO) (item : Item)
    (h : ∀ ts, item ≠ Item.list ts) :
    FIFO.enqueue q item true = ⟨q.items ++ [item]⟩ ∧
    FIFO.dequeue (FIFO.enqueue ⟨[]⟩ item true) = .ok (item, ⟨[]⟩) := by
  cases item with
  | tri t => exact ⟨rfl, rfl⟩
  | list ts => exact absurd rfl (h ts)

/-- Witness for C9 at a concrete triangle item. -/
theorem c9_enqueue_nonlist_is_single_witness :
    (∀ ts, Item.tri ⟨0, 1, 2, 3⟩ ≠ Item.list ts) ∧
    (FIFO.enqueue ⟨[]⟩ (Item.tri ⟨0, 1, 2, 3⟩) true = ⟨[] ++ [Item.tri ⟨0, 1, 2, 3⟩]⟩ ∧
     FIFO.dequeue (FIFO.enqueue ⟨[]⟩ (Item.tri ⟨0, 1, 2, 3⟩) true) =
       .ok (Item.tri ⟨0, 1, 2, 3⟩, ⟨[]⟩)) :=
  ⟨fun ts h => Item.noConfusion h,
   c9_enqueue_nonlist_is_single ⟨[]⟩ (Item.tri ⟨0, 1, 2, 3⟩) (fun ts h => Item.noConfusion h)⟩

lemma renderLoop_rotate (l₁ : List Item) : ∀ l₂ drawn,
    renderLoop l₁.length ⟨l₁ ++ l₂⟩ drawn = .ok (⟨l₂ ++ l₁⟩, drawn ++ l₁) := by
  induction l₁ with
  | nil => intro l₂ drawn; simp [renderLoop]
  | cons x xs ih =>
      intro l₂ drawn
      have step :
          renderLoop (x :: xs).length ⟨(x :: xs) ++ l₂⟩ drawn =
            renderLoop xs.length ⟨(xs ++ l₂) ++ [x]⟩ (drawn ++ [x]) := rfl
      rw [step, List.append_assoc, ih (l₂ ++ [x]) (drawn ++ [x])]
      simp

/-- C6: one render frame — `size()` captured once, then that many
(dequeue, hand to the drawing collaborator, re-enqueue) iterations —
succeeds and leaves the queue's contents and their relative order
exactly as before the loop (and hands every element over once, in
order). -/
theorem c6_render_rotation_identity (q : FIFO) :
    renderLoop q.size q [] = .ok (q, q.items) := by
  have h := renderLoop_rotate q.items [] []
  simpa [FIFO.size] using h

lemma exceptBind_ok {α β : Type} (a : α) (f : α → Except Err β) :
    (Except.ok a >>= f) = f a := rfl

lemma exceptBind_error {α β : Type} (e : Err) (f : α → Except Err β) :
    ((Except.error e : Except Err α) >>= f) = .error e := rfl

lemma sortPair_comm (a b : ℕ) : sortPair b a = sortPair a b := by
  unfold sortPair
  by_cases h1 : b ≤ a <;> by_cases h2 : a ≤ b <;> simp [h1, h2] <;> omega

lemma add_connection_self (s : GState) (x : ℕ) :
    add_connection s x x = .error (.assertionError ("A node cannot connect to itself.")) := by
  simp [add_connection]

lemma add_connection_mem (s : GState) (x y : ℕ) (hne : y ≠ x)
    (h : (x, y) ∈ s.edges) : add_connection s x y = .ok s := by
  simp [add_connection, hne, h]

lemma add_connection_not_mem (s : GState) (x y : ℕ) (hne : y ≠ x)
    (h : (x, y) ∉ s.edges) :
    add_connection s x y =
      .ok { s with edges := insert (x, y) (insert (y, x) s.edges) } := by
  simp [add_connection, hne, h]

lemma add_connection_spec (s : GState) (x y : ℕ) (s' : GState)
    (h : add_connection s x y = .ok s') :
    y ≠ x ∧ s'.nextId = s.nextId ∧ s'.nextTid = s.nextTid ∧ s'.cache = s.cache ∧
    s.edges ⊆ s'.edges ∧ s'.edges ⊆ insert (x, y) (insert (y, x) s.edges) ∧
    (x, y) ∈ s'.edges := by
  unfold add_connection at h
  by_cases h1 : y = x
  · simp [h1] at h
  · rw [if_neg h1] at h
    by_cases h2 : (x, y) ∈ s.edges
    · rw [if_pos h2] at h
      cases h
      refine ⟨h1, rfl, rfl, rfl, fun p hp => hp, fun p hp => ?_, h2⟩
      · exact Finset.mem_insert_of_mem (Finset.mem_insert_of_mem hp)
    · rw [if_neg h2] at h
      cases h
      refine ⟨h1, rfl, rfl, rfl, fun p hp => ?_, fun p hp => hp, ?_⟩
      · exact Finset.mem_insert_of_mem (Finset.mem_insert_of_mem hp)
      · exact Finset.mem_insert_self _ _

lemma remove_connection_ok (s : GState) (x y : ℕ) (hxy : (x, y) ∈ s.edges)
    (hyx : (y, x) ∈ s.edges) (hne : x ≠ y) :
    remove_connection s x y =
      .ok { s with edges := (s.edges.erase (x, y)).erase (y, x) } := by
  have hmem : (y, x) ∈ s.edges.erase (x, y) := by
    refine Finset.mem_erase.mpr ⟨?_, hyx⟩
    intro hcontra
    exact hne (by simpa using congrArg Prod.snd hcontra)
  simp [remove_connection, hxy, hmem]

lemma remove_connection_spec (s : GState) (x y : ℕ) (s' : GState)
    (h : remove_connection s x y = .ok s') :
    (x, y) ∈ s.edges ∧ s'.nextId = s.nextId ∧ s'.nextTid = s.nextTid ∧
    s'.cache = s.cache ∧ s'.edges = (s.edges.erase (x, y)).erase (y, x) := by
  unfold remove_connection at h
  by_cases h1 : (x, y) ∈ s.edges
  · rw [if_pos h1] at h
    by_cases h2 : (y, x) ∈ s.edges.erase (x, y)
    · rw [if_pos h2] at h
      cases h
      exact ⟨h1, rfl, rfl, rfl, rfl⟩
    · rw [if_neg h2] at h
      cases h
  · rw [if_neg h1] at h
    cases h

lemma cacheLookup_cons_self (key : ℕ × ℕ) (n : ℕ) (rest : List ((ℕ × ℕ) × ℕ)) :
    cacheLookup key ((key, n) :: rest) = some n := by
  simp [cacheLookup]

lemma create_new_node_hit (s : GState) (a b n : ℕ)
    (h : cacheLookup (sortPair a b) s.cache = some n) :
    create_new_node s a b = .ok (n, s) := by
  simp [create_new_node, h]

lemma create_new_node_miss (s : GState) (a b : ℕ)
    (h : cacheLookup (sortPair a b) s.cache = none) :
    create_new_node s a b =
      match create_new_node_base s a b with
      | .ok (n, s') => .ok (n, { s' with cache := (sortPair a b, n) :: s'.cache })
      | .error e => .error e := by
  simp [create_new_node, h]

lemma create_new_node_cached_after (s : GState) (a b n : ℕ) (s₁ : GState)
    (h : create_new_node s a b = .ok (n, s₁)) :
    cacheLookup (sortPair a b) s₁.cache = some n := by
  cases hl : cacheLookup (sortPair a b) s.cache with
  | some m =>
      rw [create_new_node_hit s a b m hl] at h
      cases h
      exact hl
  | none =>
      rw [create_new_node_miss s a b hl] at h
      cases hb : create_new_node_base s a b with
      | ok v =>
          rw [hb] at h
          cases v with
          | mk n0 s0 =>
              cases h
              exact cacheLookup_cons_self _ _ _
      | error e =>
          rw [hb] at h
          cases h

/-- C1: if `getOrCreateMidpoint(A, B)` (the `cache_nodes`-wrapped
`create_new_node`) succeeds on a connected pair, calling it again
returns the identical point with the state untouched (a cache hit:
the stored node is returned without re-checking connectivity and
without mutating the graph), and — the key being the unordered sorted
id pair — so does `getOrCreateMidpoint(B, A)`. -/
theorem c1_midpoint_memoized (s : GState) (a b n : ℕ) (s₁ : GState)
    (hconn : has_connection s a b = true)
    (h1 : create_new_node s a b = .ok (n, s₁)) :
    create_new_node s₁ a b = .ok (n, s₁) ∧
    create_new_node s₁ b a = .ok (n, s₁) := by
  have hc : cacheLookup (sortPair a b) s₁.cache = some n :=
    create_new_node_cached_after s a b n s₁ h1
  refine ⟨create_new_node_hit s₁ a b n hc, ?_⟩
  have hc' : cacheLookup (sortPair b a) s₁.cache = some n := by
    rw [sortPair_comm]
    exact hc
  exact create_new_node_hit s₁ b a n hc'

/- A concrete state for the C1 witness: nodes 1 and 2 connected, with
the midpoint 7 already memoised for the pair. -/
def c1WitS : GState :=
  ⟨7, 0, {(1, 2), (2, 1)}, [((1, 2), 7)]⟩

/-- Witness for C1 on a concrete connected pair. -/
theorem c1_midpoint_memoized_witness :
    (has_connection c1WitS 1 2 = true ∧ create_new_node c1WitS 1 2 = .ok (7, c1WitS)) ∧
    (create_new_node c1WitS 1 2 = .ok (7, c1WitS) ∧
     create_new_node c1WitS 2 1 = .ok (7, c1WitS)) :=
  ⟨⟨by decide, rfl⟩, c1_midpoint_memoized c1WitS 1 2 7 c1WitS (by decide) rfl⟩

lemma wrap_create_errors_error (r : Except Err (ℕ × GState)) (e : Err)
    (h : wrap_create_errors r = .error e) :
    ∃ inner : Err,
      e = .valueError ("An error occurred while creating a new node: " ++ Err.text inner) := by
  cases r with
  | ok v => cases h
  | error e0 =>
      refine ⟨e0, ?_⟩
      cases h
      rfl

/-- C10: on the cache-miss path, every failure surfaces as a Python
`ValueError`: either the precondition failure raised directly before
the try block, or — for any exception raised inside the try block
(displacement computation, node creation, edge re-wiring) — the
re-raised `ValueError` whose message embeds the original error text.
No other exception type escapes `create_new_node`. -/
theorem c10_miss_errors_wrapped (s : GState) (a b : ℕ) (e : Err)
    (hmiss : cacheLookup (sortPair a b) s.cache = none)
    (herr : create_new_node s a b = .error e) :
    e = .valueError ("Nodes must be connected to create a new node between them.") ∨
    ∃ inner : Err,
      e = .valueError ("An error occurred while creating a new node: " ++ Err.text inner) := by
  rw [create_new_node_miss s a b hmiss] at herr
  cases hb : create_new_node_base s a b with
  | ok v =>
      rw [hb] at herr
      cases v with
      | mk n0 s0 => cases herr
  | error e0 =>
      rw [hb] at herr
      cases herr
      unfold create_new_node_base at hb
      by_cases hc : has_connection s a b
      · rw [if_neg (by simpa using hc)] at hb
        exact Or.inr (wrap_create_errors_error _ _ hb)
      · rw [if_pos (by simpa using hc)] at hb
        cases hb
        exact Or.inl rfl

/- A concrete state for the C10 witness: empty graph, so node ids 1, 2
are unconnected and the precondition failure is raised directly. -/
def c10WitS : GState := ⟨0, 0, ∅, []⟩

/-- Witness for C10: the disconnected pair surfaces as the direct
precondition `ValueError`. -/
theorem c10_miss_errors_wrapped_witness :
    (cacheLookup (sortPair 1 2) c10WitS.cache = none ∧
     create_new_node c10WitS 1 2 =
       .error (.valueError ("Nodes must be connected to create a new node between them."))) ∧
    ((Err.valueError ("Nodes must be connected to create a new node between them.")) =
       .valueError ("Nodes must be connected to create a new node between them.") ∨
     ∃ inner : Err,
       (Err.valueError ("Nodes must be connected to create a new node between them.")) =
         .valueError ("An error occurred while creating a new node: " ++ Err.text inner)) :=
  ⟨⟨rfl, rfl⟩, c10_miss_errors_wrapped c10WitS 1 2 _ rfl rfl⟩

/- The state produced by a successful cache-miss `create_new_node`
before the decorator stores the result: node `nextId+1` allocated and
connected to both endpoints, the endpoint edge removed. -/
def missState (s : GState) (a b : ℕ) : GState :=
  { nextId := s.nextId + 1, nextTid := s.nextTid,
    edges :=
      ((insert (s.nextId + 1, b) (insert (b, s.nextId + 1)
        (insert (s.nextId + 1, a) (insert (a, s.nextId + 1) s.edges)))).erase (a, b)).erase (b, a),
    cache := s.cache }

lemma create_new_node_base_ok (s : GState) (a b : ℕ)
    (hab : (a, b) ∈ s.edges) (hba : (b, a) ∈ s.edges) (hne : a ≠ b)
    (hbound : ∀ p ∈ s.edges, p.1 ≤ s.nextId ∧ p.2 ≤ s.nextId) :
    create_new_node_base s a b = .ok (s.nextId + 1, missState s a b) := by
  have ha : a ≤ s.nextId := (hbound (a, b) hab).1
  have hb : b ≤ s.nextId := (hbound (a, b) hab).2
  have hconn : has_connection s a b = true := by
    simp [has_connection, hab]
  set n := s.nextId + 1 with hn
  have hs1 : newNode s = (n, { s with nextId := n }) := rfl
  have e1 : add_connection { s with nextId := n } n a =
      .ok { s with nextId := n, edges := insert (n, a) (insert (a, n) s.edges) } := by
    refine add_connection_not_mem _ n a (by omega) ?_
    intro hmem
    exact absurd (hbound (n, a) hmem).1 (by omega)
  have e2 : add_connection { s with nextId := n, edges := insert (n, a) (insert (a, n) s.edges) } n b =
      .ok { s with nextId := n, edges := insert (n, b) (insert (b, n) (insert (n, a) (insert (a, n) s.edges))) } := by
    refine add_connection_not_mem _ n b (by omega) ?_
    intro hmem
    rcases Finset.mem_insert.mp hmem with h1 | h1
    · exact hne (by simpa using (congrArg Prod.snd h1).symm)
    rcases Finset.mem_insert.mp h1 with h2 | h2
    · exact absurd (congrArg Prod.fst h2) (by simp; omega)
    · exact absurd (hbound (n, b) h2).1 (by omega)
  have e3 : remove_connection { s with nextId := n, edges := insert (n, b) (insert (b, n) (insert (n, a) (insert (a, n) s.edges))) } a b =
      .ok (missState s a b) := by
    have hab' : (a, b) ∈ insert (n, b) (insert (b, n) (insert (n, a) (insert (a, n) s.edges))) := by
      simp [hab]
    have hba' : (b, a) ∈ insert (n, b) (insert (b, n) (insert (n, a) (insert (a, n) s.edges))) := by
      simp [hba]
    exact remove_connection_ok _ a b hab' hba' hne
  unfold create_new_node_base
  rw [if_neg (by simp [hconn])]
  show wrap_create_errors
      (add_connection { s with nextId := n } n a >>= fun s2 =>
        add_connection s2 n b >>= fun s3 =>
          remove_connection s3 a b >>= fun s4 => pure (n, s4)) = _
  rw [e1, exceptBind_ok, e2, exceptBind_ok, e3, exceptBind_ok]
  rfl

lemma create_new_node_miss_ok (s : GState) (a b : ℕ)
    (hmiss : cacheLookup (sortPair a b) s.cache = none)
    (hab : (a, b) ∈ s.edges) (hba : (b, a) ∈ s.edges) (hne : a ≠ b)
    (hbound : ∀ p ∈ s.edges, p.1 ≤ s.nextId ∧ p.2 ≤ s.nextId) :
    create_new_node s a b =
      .ok (s.nextId + 1,
        { missState s a b with
            cache := (sortPair a b, s.nextId + 1) :: s.cache }) := by
  rw [create_new_node_miss s a b hmiss,
      create_new_node_base_ok s a b hab hba hne hbound]
  rfl

/-- C4: on a cache miss, `getOrCreateMidpoint(a, b)` fails with the
disconnected-edge error when `a` and `b` are not connected; when they
are connected (in a well-formed adjacency state), it allocates exactly
one new node, connects it symmetrically to both `a` and `b`, removes
the `a`–`b` edge in both directions, stores the node under the
unordered pair key, and returns it. -/
theorem c4_miss_creates_midpoint (s : GState) (a b : ℕ)
    (hmiss : cacheLookup (sortPair a b) s.cache = none) :
    (has_connection s a b = false →
      create_new_node s a b =
        .error (.valueError ("Nodes must be connected to create a new node between them."))) ∧
    ((a, b) ∈ s.edges → (b, a) ∈ s.edges → a ≠ b →
     (∀ p ∈ s.edges, p.1 ≤ s.nextId ∧ p.2 ≤ s.nextId) →
      ∃ n s', create_new_node s a b = .ok (n, s') ∧
        n = s.nextId + 1 ∧ s'.nextId = s.nextId + 1 ∧
        (n, a) ∈ s'.edges ∧ (a, n) ∈ s'.edges ∧ (n, b) ∈ s'.edges ∧ (b, n) ∈ s'.edges ∧
        (a, b) ∉ s'.edges ∧ (b, a) ∉ s'.edges ∧
        cacheLookup (sortPair a b) s'.cache = some n) := by
  constructor
  · intro h
    rw [create_new_node_miss s a b hmiss]
    unfold create_new_node_base
    rw [if_pos (by simp [h])]
  · intro hab hba hne hbound
    have ha := (hbound (a, b) hab).1
    have hb := (hbound (a, b) hab).2
    refine ⟨s.nextId + 1, _, create_new_node_miss_ok s a b hmiss hab hba hne hbound,
      rfl, rfl, ?_, ?_, ?_, ?_, ?_, ?_, ?_⟩
    · refine Finset.mem_erase.mpr ⟨?_, Finset.mem_erase.mpr ⟨?_, ?_⟩⟩
      · intro h; rw [Prod.ext_iff] at h; omega
      · intro h; rw [Prod.ext_iff] at h; omega
      · exact Finset.mem_insert_of_mem (Finset.mem_insert_of_mem (Finset.mem_insert_self _ _))
    · refine Finset.mem_erase.mpr ⟨?_, Finset.mem_erase.mpr ⟨?_, ?_⟩⟩
      · intro h; rw [Prod.ext_iff] at h; omega
      · intro h; rw [Prod.ext_iff] at h; omega
      · exact Finset.mem_insert_of_mem (Finset.mem_insert_of_mem
          (Finset.mem_insert_of_mem (Finset.mem_insert_self _ _)))
    · refine Finset.mem_erase.mpr ⟨?_, Finset.mem_erase.mpr ⟨?_, ?_⟩⟩
      · intro h; rw [Prod.ext_iff] at h; omega
      · intro h; rw [Prod.ext_iff] at h; omega
      · exact Finset.mem_insert_self _ _
    · refine Finset.mem_erase.mpr ⟨?_, Finset.mem_erase.mpr ⟨?_, ?_⟩⟩
      · intro h; rw [Prod.ext_iff] at h; omega
      · intro h; rw [Prod.ext_iff] at h; omega
      · exact Finset.mem_insert_of_mem (Finset.mem_insert_self _ _)
    · intro hmem
      exact (Finset.mem_erase.mp (Finset.mem_erase.mp hmem).2).1 rfl
    · intro hmem
      exact (Finset.mem_erase.mp hmem).1 rfl
    · exact cacheLookup_cons_self _ _ _

/- A concrete state for the C4 witness: nodes 1, 2 connected, nothing
cached. -/
def c4WitS : GState := ⟨2, 0, {(1, 2), (2, 1)}, []⟩

/-- Witness for C4 on the concrete connected pair (1, 2). -/
theorem c4_miss_creates_midpoint_witness :
    (cacheLookup (sortPair 1 2) c4WitS.cache = none) ∧
    ((has_connection c4WitS 1 2 = false →
      create_new_node c4WitS 1 2 =
        .error (.valueError ("Nodes must be connected to create a new node between them."))) ∧
     ((1, 2) ∈ c4WitS.edges → (2, 1) ∈ c4WitS.edges → 1 ≠ 2 →
      (∀ p ∈ c4WitS.edges, p.1 ≤ c4WitS.nextId ∧ p.2 ≤ c4WitS.nextId) →
      ∃ n s', create_new_node c4WitS 1 2 = .ok (n, s') ∧
        n = c4WitS.nextId + 1 ∧ s'.nextId = c4WitS.nextId + 1 ∧
        (n, 1) ∈ s'.edges ∧ (1, n) ∈ s'.edges ∧ (n, 2) ∈ s'.edges ∧ (2, n) ∈ s'.edges ∧
        (1, 2) ∉ s'.edges ∧ (2, 1) ∉ s'.edges ∧
        cacheLookup (sortPair 1 2) s'.cache = some n)) :=
  ⟨rfl, c4_miss_creates_midpoint c4WitS 1 2 rfl⟩

/- The adjacency invariant of the spec: symmetric, no self-loops. -/
def SymIrr (s : GState) : Prop :=
  (∀ p ∈ s.edges, (p.2, p.1) ∈ s.edges) ∧ (∀ p ∈ s.edges, p.1 ≠ p.2)

instance (s : GState) : Decidable (SymIrr s) := by
  unfold SymIrr
  infer_instance

lemma add_connection_symirr (s : GState) (x y : ℕ) (s' : GState)
    (h : SymIrr s) (hok : add_connection s x y = .ok s') : SymIrr s' := by
  unfold add_connection at hok
  by_cases h1 : y = x
  · simp [h1] at hok
  · rw [if_neg h1] at hok
    by_cases h2 : (x, y) ∈ s.edges
    · rw [if_pos h2] at hok
      cases hok
      exact h
    · rw [if_neg h2] at hok
      cases hok
      constructor
      · intro p hp
        rcases Finset.mem_insert.mp hp with h3 | h3
        · subst h3
          exact Finset.mem_insert_of_mem (Finset.mem_insert_self _ _)
        rcases Finset.mem_insert.mp h3 with h4 | h4
        · subst h4
          exact Finset.mem_insert_self _ _
        · exact Finset.mem_insert_of_mem (Finset.mem_insert_of_mem (h.1 p h4))
      · intro p hp
        rcases Finset.mem_insert.mp hp with h3 | h3
        · subst h3
          exact fun hxy => h1 hxy.symm
        rcases Finset.mem_insert.mp h3 with h4 | h4
        · subst h4
          exact h1
        · exact h.2 p h4

lemma remove_connection_symirr (s : GState) (x y : ℕ) (s' : GState)
    (h : SymIrr s) (hok : remove_connection s x y = .ok s') : SymIrr s' := by
  obtain ⟨-, -, -, -, hedges⟩ := remove_connection_spec s x y s' hok
  constructor
  · intro p hp
    rw [hedges] at hp ⊢
    have hp1 := (Finset.mem_erase.mp hp).1
    have hp2 := (Finset.mem_erase.mp (Finset.mem_erase.mp hp).2).1
    have hp3 := (Finset.mem_erase.mp (Finset.mem_erase.mp hp).2).2
    refine Finset.mem_erase.mpr ⟨?_, Finset.mem_erase.mpr ⟨?_, h.1 p hp3⟩⟩
    · intro hc
      exact hp2 (by rw [Prod.ext_iff] at hc ⊢; exact ⟨hc.2, hc.1⟩)
    · intro hc
      exact hp1 (by rw [Prod.ext_iff] at hc ⊢; exact ⟨hc.2, hc.1⟩)
  · intro p hp
    rw [hedges] at hp
    exact h.2 p (Finset.mem_erase.mp (Finset.mem_erase.mp hp).2).2

lemma wrap_create_errors_ok (r : Except Err (ℕ × GState)) (v : ℕ × GState)
    (h : wrap_create_errors r = .ok v) : r = .ok v := by
  cases r with
  | ok w =>
      cases h
      rfl
  | error e => cases h

lemma create_new_node_base_symirr (s : GState) (a b : ℕ) (n : ℕ) (s' : GState)
    (h : SymIrr s) (hok : create_new_node_base s a b = .ok (n, s')) : SymIrr s' := by
  unfold create_new_node_base at hok
  by_cases hc : has_connection s a b
  · rw [if_neg (by simpa using hc)] at hok
    have hbody := wrap_create_errors_ok _ _ hok
    cases h2 : add_connection { s with nextId := s.nextId + 1 } (s.nextId + 1) a with
    | error e =>
        rw [show newNode s = (s.nextId + 1, { s with nextId := s.nextId + 1 }) from rfl] at hbody
        simp only [exceptBind_error, h2] at hbody
        cases hbody
    | ok s2 =>
        rw [show newNode s = (s.nextId + 1, { s with nextId := s.nextId + 1 }) from rfl] at hbody
        simp only [h2, exceptBind_ok] at hbody
        have hs2 : SymIrr s2 :=
          add_connection_symirr { s with nextId := s.nextId + 1 } (s.nextId + 1) a s2 (by exact h) h2
        cases h3 : add_connection s2 (s.nextId + 1) b with
        | error e =>
            simp only [h3, exceptBind_error] at hbody
            cases hbody
        | ok s3 =>
            simp only [h3, exceptBind_ok] at hbody
            have hs3 : SymIrr s3 := add_connection_symirr _ _ _ _ hs2 h3
            cases h4 : remove_connection s3 a b with
            | error e =>
                simp only [h4, exceptBind_error] at hbody
                cases hbody
            | ok s4 =>
                simp only [h4, exceptBind_ok] at hbody
                have hs4 : SymIrr s4 := remove_connection_symirr _ _ _ _ hs3 h4
                cases hbody
                exact hs4
  · rw [if_pos (by simpa using hc)] at hok
    cases hok

lemma create_new_node_symirr (s : GState) (a b : ℕ) (n : ℕ) (s' : GState)
    (h : SymIrr s) (hok : create_new_node s a b = .ok (n, s')) : SymIrr s' := by
  cases hl : cacheLookup (sortPair a b) s.cache with
  | some m =>
      rw [create_new_node_hit s a b m hl] at hok
      cases hok
      exact h
  | none =>
      rw [create_new_node_miss s a b hl] at hok
      cases hb : create_new_node_base s a b with
      | ok v =>
          rw [hb] at hok
          cases v with
          | mk n0 s0 =>
              cases hok
              have h0 := create_new_node_base_symirr s a b _ _ h hb
              exact h0
      | error e =>
          rw [hb] at hok
          cases hok

lemma create_edges_symirr (s : GState) (t : Triangle) (s' : GState)
    (h : SymIrr s) (hok : Triangle.create_edges s t = .ok s') : SymIrr s' := by
  unfold Triangle.create_edges at hok
  cases h1 : add_connection s t.node_a t.node_b with
  | error e =>
      rw [h1] at hok
      cases hok
  | ok s1 =>
      rw [h1] at hok
      simp only [exceptBind_ok] at hok
      have hs1 : SymIrr s1 := add_connection_symirr _ _ _ _ h h1
      cases h2 : add_connection s1 t.node_a t.node_c with
      | error e =>
          rw [h2] at hok
          cases hok
      | ok s2 =>
          rw [h2] at hok
          simp only [exceptBind_ok] at hok
          have hs2 : SymIrr s2 := add_connection_symirr _ _ _ _ hs1 h2
          exact add_connection_symirr _ _ _ _ hs2 hok

lemma make_symirr (s : GState) (a b c : ℕ) (t : Triangle) (s' : GState)
    (h : SymIrr s) (hok : Triangle.make s a b c = .ok (t, s')) : SymIrr s' := by
  unfold Triangle.make at hok
  cases h1 : Triangle.create_edges { s with nextTid := s.nextTid + 1 } ⟨s.nextTid, a, b, c⟩ with
  | error e =>
      rw [show (do
            let t : Triangle := ⟨s.nextTid, a, b, c⟩
            let s0 : GState := { s with nextTid := s.nextTid + 1 }
            let s1 ← Triangle.create_edges s0 t
            pure (t, s1) : Except Err (Triangle × GState)) =
          (Triangle.create_edges { s with nextTid := s.nextTid + 1 } ⟨s.nextTid, a, b, c⟩ >>=
            fun s1 => pure (⟨s.nextTid, a, b, c⟩, s1)) from rfl, h1, exceptBind_error] at hok
      cases hok
  | ok s1 =>
      rw [show (do
            let t : Triangle := ⟨s.nextTid, a, b, c⟩
            let s0 : GState := { s with nextTid := s.nextTid + 1 }
            let s1 ← Triangle.create_edges s0 t
            pure (t, s1) : Except Err (Triangle × GState)) =
          (Triangle.create_edges { s with nextTid := s.nextTid + 1 } ⟨s.nextTid, a, b, c⟩ >>=
            fun s1 => pure (⟨s.nextTid, a, b, c⟩, s1)) from rfl, h1, exceptBind_ok] at hok
      cases hok
      exact create_edges_symirr _ _ _ (by exact h) h1

/- The graph-mutating operations of the spec (§4.1, §4.2, and triangle
construction), acting on the program state. -/
inductive Op where
  | connect (a b : ℕ)
  | disconnect (a b : ℕ)
  | getOrCreateMidpoint (a b : ℕ)
  | mkTriangle (a b c : ℕ)

def runOp (s : GState) : Op → Except Err GState
  | .connect a b => add_connection s a b
  | .disconnect a b => remove_connection s a b
  | .getOrCreateMidpoint a b =>
      match create_new_node s a b with
      | .ok v => .ok v.2
      | .error e => .error e
  | .mkTriangle a b c =>
      match Triangle.make s a b c with
      | .ok v => .ok v.2
      | .error e => .error e

def runOps : GState → List Op → Except Err GState
  | s, [] => .ok s
  | s, op :: ops =>
      match runOp s op with
      | .ok s' => runOps s' ops
      | .error e => .error e

lemma runOp_symirr (s : GState) (op : Op) (s' : GState)
    (h : SymIrr s) (hok : runOp s op = .ok s') : SymIrr s' := by
  cases op with
  | connect a b => exact add_connection_symirr s a b s' h hok
  | disconnect a b => exact remove_connection_symirr s a b s' h hok
  | getOrCreateMidpoint a b =>
      simp only [runOp] at hok
      cases hc : create_new_node s a b with
      | ok v =>
          rw [hc] at hok
          cases hok
          exact create_new_node_symirr s a b v.1 v.2 h (by rw [hc])
      | error e =>
          rw [hc] at hok
          cases hok
  | mkTriangle a b c =>
      simp only [runOp] at hok
      cases hc : Triangle.make s a b c with
      | ok v =>
          rw [hc] at hok
          cases hok
          exact make_symirr s a b c v.1 v.2 h (by rw [hc])
      | error e =>
          rw [hc] at hok
          cases hok

lemma runOps_symirr (ops : List Op) : ∀ s s' : GState,
    SymIrr s → runOps s ops = .ok s' → SymIrr s' := by
  induction ops with
  | nil =>
      intro s s' h hok
      cases hok
      exact h
  | cons op rest ih =>
      intro s s' h hok
      unfold runOps at hok
      cases h1 : runOp s op with
      | ok s1 =>
          rw [h1] at hok
          exact ih s1 s' (runOp_symirr s op s1 h h1) hok
      | error e =>
          rw [h1] at hok
          cases hok

/-- C8: adjacency stays symmetric and irreflexive: after any sequence
of connect, disconnect, getOrCreateMidpoint and triangle-construction
operations that runs without raising, starting from a symmetric,
self-loop-free state, a point is adjacent to another iff the converse
holds, and no point is adjacent to itself. -/
theorem c8_adjacency_symmetric_irreflexive (s : GState) (ops : List Op) (s' : GState)
    (h : SymIrr s) (hrun : runOps s ops = .ok s') :
    (∀ u v : ℕ, (u, v) ∈ s'.edges ↔ (v, u) ∈ s'.edges) ∧
    (∀ u : ℕ, (u, u) ∉ s'.edges) := by
  have h' : SymIrr s' := runOps_symirr ops s s' h hrun
  refine ⟨fun u v => ⟨fun hm => h'.1 (u, v) hm, fun hm => h'.1 (v, u) hm⟩, ?_⟩
  intro u hm
  exact h'.2 (u, u) hm rfl

/- Concrete data for the C8 witness: an empty graph and a sequence
exercising every operation. -/
def c8WitS : GState := ⟨3, 0, ∅, []⟩

def c8WitOps : List Op :=
  [.connect 1 2, .mkTriangle 1 2 3, .getOrCreateMidpoint 1 2, .disconnect 1 3]

def c8WitFinal : GState :=
  match runOps c8WitS c8WitOps with
  | .ok s' => s'
  | .error _ => c8WitS

/-- Witness for C8 over a concrete operation sequence. -/
theorem c8_adjacency_symmetric_irreflexive_witness :
    (SymIrr c8WitS ∧ runOps c8WitS c8WitOps = .ok c8WitFinal) ∧
    ((∀ u v : ℕ, (u, v) ∈ c8WitFinal.edges ↔ (v, u) ∈ c8WitFinal.edges) ∧
     (∀ u : ℕ, (u, u) ∉ c8WitFinal.edges)) :=
  ⟨⟨by decide, rfl⟩,
   c8_adjacency_symmetric_irreflexive c8WitS c8WitOps c8WitFinal (by decide) rfl⟩

/- Well-formedness of the adjacency state: symmetric, irreflexive, and
every endpoint id has actually been allocated. -/
def EdgesOK (s : GState) : Prop :=
  SymIrr s ∧ ∀ p ∈ s.edges, p.1 ≤ s.nextId ∧ p.2 ≤ s.nextId

/- Well-formedness of the memoisation dictionary: every stored midpoint
was allocated after its two endpoints (it was fresh when created), keys
are unique (it is a dict) and values are unique (each midpoint node was
created by exactly one miss). -/
def CacheOK (s : GState) : Prop :=
  (∀ e ∈ s.cache, e.1.1 < e.2 ∧ e.1.2 < e.2 ∧ e.2 ≤ s.nextId) ∧
  (∀ e ∈ s.cache, ∀ e' ∈ s.cache, e.1 = e'.1 → e = e') ∧
  (∀ e ∈ s.cache, ∀ e' ∈ s.cache, e.2 = e'.2 → e = e')

/- An unordered pair is subdividable: its edge is present, or its
midpoint is already memoised (the deliberate cache bypass). -/
def goodPair (s : GState) (x y : ℕ) : Prop :=
  (x, y) ∈ s.edges ∨ (cacheLookup (sortPair x y) s.cache).isSome = true

/- A triangle the expansion loop can process: allocated, pairwise
distinct vertices, every side subdividable, and an already-allocated
object serial. -/
def TriOK (s : GState) (t : Triangle) : Prop :=
  t.node_a ≤ s.nextId ∧ t.node_b ≤ s.nextId ∧ t.node_c ≤ s.nextId ∧
  t.node_a ≠ t.node_b ∧ t.node_a ≠ t.node_c ∧ t.node_b ≠ t.node_c ∧
  goodPair s t.node_a t.node_b ∧ goodPair s t.node_b t.node_c ∧
  goodPair s t.node_a t.node_c ∧ t.tid < s.nextTid

instance (s : GState) : Decidable (EdgesOK s) := by
  unfold EdgesOK; infer_instance

instance (s : GState) : Decidable (CacheOK s) := by
  unfold CacheOK; infer_instance

instance (s : GState) (x y : ℕ) : Decidable (goodPair s x y) := by
  unfold goodPair; infer_instance

instance (s : GState) (t : Triangle) : Decidable (TriOK s t) := by
  unfold TriOK; infer_instance

lemma sortPair_cases (a b : ℕ) : sortPair a b = (a, b) ∨ sortPair a b = (b, a) := by
  unfold sortPair
  by_cases h : a ≤ b <;> simp [h]

lemma sortPair_eq_inv (a b c d : ℕ) (h : sortPair a b = sortPair c d) :
    (a = c ∧ b = d) ∨ (a = d ∧ b = c) := by
  rcases sortPair_cases a b with h1 | h1 <;> rcases sortPair_cases c d with h2 | h2 <;>
    rw [h1, h2] at h <;> rw [Prod.ext_iff] at h <;> simp at h <;> tauto

lemma cacheLookup_mem (key : ℕ × ℕ) (l : List ((ℕ × ℕ) × ℕ)) (v : ℕ)
    (h : cacheLookup key l = some v) : (key, v) ∈ l := by
  induction l with
  | nil => cases h
  | cons e es ih =>
      unfold cacheLookup at h
      by_cases he : key = e.1
      · rw [if_pos he] at h
        cases h
        rw [he]
        exact List.mem_cons_self _ _
      · rw [if_neg he] at h
        exact List.mem_cons_of_mem _ (ih h)

lemma cacheLookup_none_not_mem (key : ℕ × ℕ) (l : List ((ℕ × ℕ) × ℕ))
    (h : cacheLookup key l = none) : ∀ e ∈ l, e.1 ≠ key := by
  induction l with
  | nil => intro e he; cases he
  | cons e0 es ih =>
      intro e he
      unfold cacheLookup at h
      by_cases he0 : key = e0.1
      · rw [if_pos he0] at h
        cases h
      · rw [if_neg he0] at h
        rcases List.mem_cons.mp he with h1 | h1
        · subst h1
          exact fun hc => he0 hc.symm
        · exact ih h e h1

lemma cacheLookup_cons_other (key k : ℕ × ℕ) (n : ℕ) (l : List ((ℕ × ℕ) × ℕ))
    (h : key ≠ k) : cacheLookup key ((k, n) :: l) = cacheLookup key l := by
  unfold cacheLookup
  rw [if_neg (by simpa using h)]
  cases l <;> rfl

/- The full state returned by a cache-miss `create_new_node` (graph
mutation plus the decorator's store). -/
def missFull (s : GState) (a b : ℕ) : GState :=
  { missState s a b with cache := (sortPair a b, s.nextId + 1) :: s.cache }

lemma create_new_node_miss_ok' (s : GState) (a b : ℕ)
    (hmiss : cacheLookup (sortPair a b) s.cache = none)
    (hab : (a, b) ∈ s.edges) (hba : (b, a) ∈ s.edges) (hne : a ≠ b)
    (hbound : ∀ p ∈ s.edges, p.1 ≤ s.nextId ∧ p.2 ≤ s.nextId) :
    create_new_node s a b = .ok (s.nextId + 1, missFull s a b) :=
  create_new_node_miss_ok s a b hmiss hab hba hne hbound

lemma missState_mem (s : GState) (a b : ℕ) (p : ℕ × ℕ) :
    p ∈ (missState s a b).edges ↔
      (p ≠ (b, a) ∧ p ≠ (a, b)) ∧
      (p = (s.nextId + 1, b) ∨ p = (b, s.nextId + 1) ∨ p = (s.nextId + 1, a) ∨
       p = (a, s.nextId + 1) ∨ p ∈ s.edges) := by
  simp only [missState, Finset.mem_erase, Finset.mem_insert]
  tauto

lemma missFull_mem (s : GState) (a b : ℕ) (p : ℕ × ℕ) :
    p ∈ (missFull s a b).edges ↔
      (p ≠ (b, a) ∧ p ≠ (a, b)) ∧
      (p = (s.nextId + 1, b) ∨ p = (b, s.nextId + 1) ∨ p = (s.nextId + 1, a) ∨
       p = (a, s.nextId + 1) ∨ p ∈ s.edges) :=
  missState_mem s a b p

lemma create_spec (s : GState) (a b : ℕ)
    (hE : EdgesOK s) (hC : CacheOK s)
    (ha : a ≤ s.nextId) (hb : b ≤ s.nextId) (hne : a ≠ b)
    (hg : goodPair s a b) :
    ∃ n s', create_new_node s a b = .ok (n, s') ∧
      EdgesOK s' ∧ CacheOK s' ∧
      s.nextId ≤ s'.nextId ∧ s'.nextTid = s.nextTid ∧
      a < n ∧ b < n ∧ n ≤ s'.nextId ∧
      cacheLookup (sortPair a b) s'.cache = some n ∧
      (∀ x y : ℕ, goodPair s x y → goodPair s' x y) ∧
      (∀ (k : ℕ × ℕ) (v : ℕ), cacheLookup k s.cache = some v →
        cacheLookup k s'.cache = some v) := by
  cases hl : cacheLookup (sortPair a b) s.cache with
  | some m =>
      have hmem := cacheLookup_mem _ _ _ hl
      have hkey := hC.1 _ hmem
      have hlt : a < m ∧ b < m := by
        rcases sortPair_cases a b with hsp | hsp <;> rw [hsp] at hkey
        · exact ⟨hkey.1, hkey.2.1⟩
        · exact ⟨hkey.2.1, hkey.1⟩
      exact ⟨m, s, create_new_node_hit s a b m hl, hE, hC, le_refl _, rfl,
        hlt.1, hlt.2, hkey.2.2, hl, fun x y h => h, fun k v h => h⟩
  | none =>
      have hisS : ¬ ((cacheLookup (sortPair a b) s.cache).isSome = true) := by
        rw [hl]; simp
      have hab : (a, b) ∈ s.edges := by
        rcases hg with h | h
        · exact h
        · exact absurd h hisS
      have hba : (b, a) ∈ s.edges := hE.1.1 (a, b) hab
      have heq := create_new_node_miss_ok' s a b hl hab hba hne hE.2
      have hcache : (missFull s a b).cache = (sortPair a b, s.nextId + 1) :: s.cache := rfl
      have hnid : (missFull s a b).nextId = s.nextId + 1 := rfl
      have hsp_lt : (sortPair a b).1 < s.nextId + 1 ∧ (sortPair a b).2 < s.nextId + 1 := by
        rcases sortPair_cases a b with hsp | hsp <;> rw [hsp] <;> constructor <;> simp <;> omega
      have hmono : ∀ (k : ℕ × ℕ) (v : ℕ), cacheLookup k s.cache = some v →
          cacheLookup k (missFull s a b).cache = some v := by
        intro k v hkv
        rw [hcache, cacheLookup_cons_other]
        · exact hkv
        · intro hc
          rw [hc, hl] at hkv
          cases hkv
      refine ⟨s.nextId + 1, missFull s a b, heq, ?_, ?_, by omega, rfl,
        by omega, by omega, by omega, ?_, ?_, hmono⟩
      · -- EdgesOK (missFull s a b)
        refine ⟨⟨?_, ?_⟩, ?_⟩
        · intro p hp
          rw [missFull_mem] at hp ⊢
          obtain ⟨⟨hne1, hne2⟩, hcases⟩ := hp
          refine ⟨⟨?_, ?_⟩, ?_⟩
          · intro hc
            rw [Prod.ext_iff] at hc
            exact hne2 (Prod.ext hc.2 hc.1)
          · intro hc
            rw [Prod.ext_iff] at hc
            exact hne1 (Prod.ext hc.2 hc.1)
          · rcases hcases with h | h | h | h | h
            · rw [h]; right; left; rfl
            · rw [h]; left; rfl
            · rw [h]; right; right; right; left; rfl
            · rw [h]; right; right; left; rfl
            · exact Or.inr (Or.inr (Or.inr (Or.inr (hE.1.1 p h))))
        · intro p hp
          rw [missFull_mem] at hp
          rcases hp.2 with h | h | h | h | h
          · rw [h]; simp; omega
          · rw [h]; simp; omega
          · rw [h]; simp; omega
          · rw [h]; simp; omega
          · exact hE.1.2 p h
        · intro p hp
          rw [missFull_mem] at hp
          rw [hnid]
          rcases hp.2 with h | h | h | h | h <;>
            first
              | (rw [h]; constructor <;> simp <;> omega)
              | (have hbp := hE.2 p h; omega)
      · -- CacheOK (missFull s a b)
        refine ⟨?_, ?_, ?_⟩
        · intro e he
          rw [hcache] at he
          rw [hnid]
          rcases List.mem_cons.mp he with h | h
          · rw [h]
            exact ⟨hsp_lt.1, hsp_lt.2, le_refl _⟩
          · have := hC.1 e h
            exact ⟨this.1, this.2.1, by omega⟩
        · intro e he e' he'
          rw [hcache] at he he'
          rcases List.mem_cons.mp he with h | h <;> rcases List.mem_cons.mp he' with h' | h'
          · rw [h, h']; intro; rfl
          · intro hk
            exact absurd (by rw [← hk, h]) (cacheLookup_none_not_mem _ _ hl e' h')
          · intro hk
            exact absurd (by rw [hk, h']) (cacheLookup_none_not_mem _ _ hl e h)
          · exact hC.2.1 e h e' h'
        · intro e he e' he'
          rw [hcache] at he he'
          rcases List.mem_cons.mp he with h | h <;> rcases List.mem_cons.mp he' with h' | h'
          · rw [h, h']; intro; rfl
          · intro hv
            have := (hC.1 e' h').2.2
            rw [h] at hv
            omega
          · intro hv
            have := (hC.1 e h).2.2
            rw [h'] at hv
            omega
          · exact hC.2.2 e h e' h'
      · rw [hcache]
        exact cacheLookup_cons_self _ _ _
      · -- goodPair is monotone across the miss
        intro x y hxy
        rcases hxy with hmem | hcached
        · by_cases hx1 : (x, y) = (a, b)
          · right
            have hx := (Prod.mk.injEq x y a b).mp hx1
            rw [show sortPair x y = sortPair a b by rw [hx.1, hx.2]]
            rw [hcache, cacheLookup_cons_self]
            rfl
          · by_cases hx2 : (x, y) = (b, a)
            · right
              have hx := (Prod.mk.injEq x y b a).mp hx2
              rw [show sortPair x y = sortPair a b by rw [hx.1, hx.2, sortPair_comm]]
              rw [hcache, cacheLookup_cons_self]
              rfl
            · left
              rw [missFull_mem]
              exact ⟨⟨hx2, hx1⟩, Or.inr (Or.inr (Or.inr (Or.inr hmem)))⟩
        · right
          cases hv : cacheLookup (sortPair x y) s.cache with
          | none => rw [hv] at hcached; cases hcached
          | some v =>
              rw [hmono (sortPair x y) v hv]
              rfl

lemma add_connection_sym_spec (s : GState) (x y : ℕ)
    (hE : EdgesOK s) (hne : y ≠ x) (hx : x ≤ s.nextId) (hy : y ≤ s.nextId) :
    ∃ s', add_connection s x y = .ok s' ∧ EdgesOK s' ∧
      s'.nextId = s.nextId ∧ s'.nextTid = s.nextTid ∧ s'.cache = s.cache ∧
      s.edges ⊆ s'.edges ∧ (x, y) ∈ s'.edges ∧ (y, x) ∈ s'.edges := by
  by_cases hmem : (x, y) ∈ s.edges
  · exact ⟨s, add_connection_mem s x y hne hmem, hE, rfl, rfl, rfl,
      fun p hp => hp, hmem, hE.1.1 _ hmem⟩
  · refine ⟨_, add_connection_not_mem s x y hne hmem, ⟨⟨?_, ?_⟩, ?_⟩, rfl, rfl, rfl,
      ?_, Finset.mem_insert_self _ _,
      Finset.mem_insert_of_mem (Finset.mem_insert_self _ _)⟩
    · intro p hp
      rcases Finset.mem_insert.mp hp with h | h
      · rw [h]
        exact Finset.mem_insert_of_mem (Finset.mem_insert_self _ _)
      rcases Finset.mem_insert.mp h with h2 | h2
      · rw [h2]
        exact Finset.mem_insert_self _ _
      · exact Finset.mem_insert_of_mem (Finset.mem_insert_of_mem (hE.1.1 p h2))
    · intro p hp
      rcases Finset.mem_insert.mp hp with h | h
      · rw [h]
        exact fun hc => hne hc.symm
      rcases Finset.mem_insert.mp h with h2 | h2
      · rw [h2]
        exact hne
      · exact hE.1.2 p h2
    · intro p hp
      rcases Finset.mem_insert.mp hp with h | h
      · rw [h]
        exact ⟨hx, hy⟩
      rcases Finset.mem_insert.mp h with h2 | h2
      · rw [h2]
        exact ⟨hy, hx⟩
      · exact hE.2 p h2
    · intro p hp
      exact Finset.mem_insert_of_mem (Finset.mem_insert_of_mem hp)

lemma make_spec (s : GState) (x y z : ℕ)
    (hE : EdgesOK s) (hx : x ≤ s.nextId) (hy : y ≤ s.nextId) (hz : z ≤ s.nextId)
    (hxy : x ≠ y) (hxz : x ≠ z) (hyz : y ≠ z) :
    ∃ s', Triangle.make s x y z = .ok (⟨s.nextTid, x, y, z⟩, s') ∧ EdgesOK s' ∧
      s'.nextId = s.nextId ∧ s'.nextTid = s.nextTid + 1 ∧ s'.cache = s.cache ∧
      s.edges ⊆ s'.edges ∧
      (x, y) ∈ s'.edges ∧ (y, x) ∈ s'.edges ∧ (x, z) ∈ s'.edges ∧ (z, x) ∈ s'.edges ∧
      (y, z) ∈ s'.edges ∧ (z, y) ∈ s'.edges := by
  have hE0 : EdgesOK { s with nextTid := s.nextTid + 1 } := hE
  obtain ⟨s1, e1, hE1, hn1, ht1, hc1, hsub1, m1a, m1b⟩ :=
    add_connection_sym_spec { s with nextTid := s.nextTid + 1 } x y hE0 hxy.symm hx hy
  have hn1' : s1.nextId = s.nextId := hn1
  have ht1' : s1.nextTid = s.nextTid + 1 := ht1
  obtain ⟨s2, e2, hE2, hn2, ht2, hc2, hsub2, m2a, m2b⟩ :=
    add_connection_sym_spec s1 x z hE1 hxz.symm (by omega) (by omega)
  have hc1' : s1.cache = s.cache := hc1
  obtain ⟨s3, e3, hE3, hn3, ht3, hc3, hsub3, m3a, m3b⟩ :=
    add_connection_sym_spec s2 y z hE2 hyz.symm (by omega) (by omega)
  have hce : Triangle.create_edges { s with nextTid := s.nextTid + 1 }
      (Triangle.mk s.nextTid x y z) = .ok s3 := by
    show (add_connection { s with nextTid := s.nextTid + 1 } x y >>=
      fun sa => add_connection sa x z >>= fun sb => add_connection sb y z) = .ok s3
    rw [e1, exceptBind_ok, e2, exceptBind_ok, e3]
  have hmk : Triangle.make s x y z = .ok (⟨s.nextTid, x, y, z⟩, s3) := by
    show (Triangle.create_edges { s with nextTid := s.nextTid + 1 }
        (Triangle.mk s.nextTid x y z) >>=
      fun sc => pure (Triangle.mk s.nextTid x y z, sc)) =
        .ok (Triangle.mk s.nextTid x y z, s3)
    rw [hce, exceptBind_ok]
    rfl
  refine ⟨s3, hmk, hE3, by omega, by omega, by rw [hc3, hc2, hc1'], ?_,
    hsub3 (hsub2 m1a), hsub3 (hsub2 m1b), hsub3 m2a, hsub3 m2b, m3a, m3b⟩
  intro p hp
  exact hsub3 (hsub2 (hsub1 hp))

lemma goodPair_mono_edges (s s' : GState) (x y : ℕ)
    (h : s.edges ⊆ s'.edges) (hc : s'.cache = s.cache)
    (hg : goodPair s x y) : goodPair s' x y := by
  rcases hg with hm | hm
  · exact Or.inl (h hm)
  · right
    rw [hc]
    exact hm

lemma subdivide_spec (s : GState) (t : Triangle)
    (hE : EdgesOK s) (hC : CacheOK s) (hT : TriOK s t) :
    ∃ (d e f : ℕ) (s₁ s₂ s₃ s' : GState),
      create_new_node s t.node_a t.node_b = .ok (d, s₁) ∧
      create_new_node s₁ t.node_b t.node_c = .ok (e, s₂) ∧
      create_new_node s₂ t.node_a t.node_c = .ok (f, s₃) ∧
      Triangle.subdivide s t =
        .ok ([⟨s.nextTid, d, t.node_b, e⟩, ⟨s.nextTid + 1, t.node_a, d, f⟩,
              ⟨s.nextTid + 2, f, e, t.node_c⟩, ⟨s.nextTid + 3, d, e, f⟩], s') ∧
      EdgesOK s' ∧ CacheOK s' ∧
      s.nextId ≤ s'.nextId ∧ s'.nextTid = s.nextTid + 4 ∧
      d ≤ s'.nextId ∧ e ≤ s'.nextId ∧ f ≤ s'.nextId ∧
      t.node_a < d ∧ t.node_b < d ∧ t.node_b < e ∧ t.node_c < e ∧
      t.node_a < f ∧ t.node_c < f ∧
      d ≠ e ∧ d ≠ f ∧ e ≠ f ∧
      (d, t.node_b) ∈ s'.edges ∧ (t.node_b, e) ∈ s'.edges ∧ (d, e) ∈ s'.edges ∧
      (t.node_a, d) ∈ s'.edges ∧ (t.node_a, f) ∈ s'.edges ∧ (d, f) ∈ s'.edges ∧
      (f, e) ∈ s'.edges ∧ (f, t.node_c) ∈ s'.edges ∧ (e, t.node_c) ∈ s'.edges ∧
      (e, f) ∈ s'.edges ∧
      (∀ t' : Triangle, TriOK s t' → TriOK s' t') := by
  obtain ⟨hba', hbb', hbc', hab, hac, hbc, hg1, hg2, hg3, htid⟩ := hT
  obtain ⟨d, s₁, hcr1, hE1, hC1, hni1, hti1, had, hbd, hdn1, hl1, hgm1, hcm1⟩ :=
    create_spec s t.node_a t.node_b hE hC hba' hbb' hab hg1
  obtain ⟨e, s₂, hcr2, hE2, hC2, hni2, hti2, hbe, hce, hen2, hl2, hgm2, hcm2⟩ :=
    create_spec s₁ t.node_b t.node_c hE1 hC1 (by omega) (by omega) hbc (hgm1 _ _ hg2)
  obtain ⟨f, s₃, hcr3, hE3, hC3, hni3, hti3, haf, hcf, hfn3, hl3, hgm3, hcm3⟩ :=
    create_spec s₂ t.node_a t.node_c hE2 hC2 (by omega) (by omega) hac
      (hgm2 _ _ (hgm1 _ _ hg3))
  have hl1' : cacheLookup (sortPair t.node_a t.node_b) s₃.cache = some d :=
    hcm3 _ _ (hcm2 _ _ hl1)
  have hl2' : cacheLookup (sortPair t.node_b t.node_c) s₃.cache = some e :=
    hcm3 _ _ hl2
  have hm1 := cacheLookup_mem _ _ _ hl1'
  have hm2 := cacheLookup_mem _ _ _ hl2'
  have hm3 := cacheLookup_mem _ _ _ hl3
  have hde : d ≠ e := by
    intro hdeq
    have := hC3.2.2 _ hm1 _ hm2 (by simpa using hdeq)
    have hkeys : sortPair t.node_a t.node_b = sortPair t.node_b t.node_c := by
      have := congrArg Prod.fst this
      simpa using this
    rcases sortPair_eq_inv _ _ _ _ hkeys with ⟨h1, h2⟩ | ⟨h1, h2⟩
    · exact hab h1
    · exact hac h1
  have hdf : d ≠ f := by
    intro hdeq
    have := hC3.2.2 _ hm1 _ hm3 (by simpa using hdeq)
    have hkeys : sortPair t.node_a t.node_b = sortPair t.node_a t.node_c := by
      have := congrArg Prod.fst this
      simpa using this
    rcases sortPair_eq_inv _ _ _ _ hkeys with ⟨h1, h2⟩ | ⟨h1, h2⟩
    · exact hbc h2
    · exact hab h2.symm
  have hef : e ≠ f := by
    intro hdeq
    have := hC3.2.2 _ hm2 _ hm3 (by simpa using hdeq)
    have hkeys : sortPair t.node_b t.node_c = sortPair t.node_a t.node_c := by
      have := congrArg Prod.fst this
      simpa using this
    rcases sortPair_eq_inv _ _ _ _ hkeys with ⟨h1, h2⟩ | ⟨h1, h2⟩
    · exact hab h1.symm
    · exact hbc h1
  have hd3 : d ≤ s₃.nextId := by omega
  have he3 : e ≤ s₃.nextId := by omega
  have hf3 : f ≤ s₃.nextId := by omega
  have ha3 : t.node_a ≤ s₃.nextId := by omega
  have hb3 : t.node_b ≤ s₃.nextId := by omega
  have hc3 : t.node_c ≤ s₃.nextId := by omega
  obtain ⟨s₄, hmk1, hE4, hni4, hti4, hca4, hsub4, p1a, p1a', p1b, p1b', p1c, p1c'⟩ :=
    make_spec s₃ d t.node_b e hE3 hd3 hb3 he3 (by omega) hde (by omega)
  obtain ⟨s₅, hmk2, hE5, hni5, hti5, hca5, hsub5, p2a, p2a', p2b, p2b', p2c, p2c'⟩ :=
    make_spec s₄ t.node_a d f hE4 (by omega) (by omega) (by omega) (by omega) (by omega) hdf
  obtain ⟨s₆, hmk3, hE6, hni6, hti6, hca6, hsub6, p3a, p3a', p3b, p3b', p3c, p3c'⟩ :=
    make_spec s₅ f e t.node_c hE5 (by omega) (by omega) (by omega)
      (fun h => hef h.symm) (by omega) (by omega)
  obtain ⟨s₇, hmk4, hE7, hni7, hti7, hca7, hsub7, p4a, p4a', p4b, p4b', p4c, p4c'⟩ :=
    make_spec s₆ d e f hE6 (by omega) (by omega) (by omega) hde hdf hef
  have htid1 : s₃.nextTid = s.nextTid := by omega
  have htid2 : s₄.nextTid = s.nextTid + 1 := by omega
  have htid3 : s₅.nextTid = s.nextTid + 2 := by omega
  have htid4 : s₆.nextTid = s.nextTid + 3 := by omega
  have hsubd : Triangle.subdivide s t =
      .ok ([⟨s.nextTid, d, t.node_b, e⟩, ⟨s.nextTid + 1, t.node_a, d, f⟩,
            ⟨s.nextTid + 2, f, e, t.node_c⟩, ⟨s.nextTid + 3, d, e, f⟩], s₇) := by
    rw [show (⟨s.nextTid, d, t.node_b, e⟩ : Triangle) = ⟨s₃.nextTid, d, t.node_b, e⟩ by rw [htid1],
        show (⟨s.nextTid + 1, t.node_a, d, f⟩ : Triangle) = ⟨s₄.nextTid, t.node_a, d, f⟩ by rw [htid2],
        show (⟨s.nextTid + 2, f, e, t.node_c⟩ : Triangle) = ⟨s₅.nextTid, f, e, t.node_c⟩ by rw [htid3],
        show (⟨s.nextTid + 3, d, e, f⟩ : Triangle) = ⟨s₆.nextTid, d, e, f⟩ by rw [htid4]]
    simp only [Triangle.subdivide, hcr1, hcr2, hcr3, hmk1, hmk2, hmk3, hmk4, exceptBind_ok]
    rfl
  have hcache73 : s₇.cache = s₃.cache := by rw [hca7, hca6, hca5, hca4]
  have hnid73 : s₇.nextId = s₃.nextId := by omega
  have hgm : ∀ x y : ℕ, goodPair s x y → goodPair s₇ x y := by
    intro x y h
    apply goodPair_mono_edges s₆ s₇ x y hsub7 hca7
    apply goodPair_mono_edges s₅ s₆ x y hsub6 hca6
    apply goodPair_mono_edges s₄ s₅ x y hsub5 hca5
    apply goodPair_mono_edges s₃ s₄ x y hsub4 hca4
    exact hgm3 x y (hgm2 x y (hgm1 x y h))
  refine ⟨d, e, f, s₁, s₂, s₃, s₇, hcr1, hcr2, hcr3, hsubd, hE7, ?_, by omega, by omega,
    by omega, by omega, by omega, had, hbd, hbe, hce, haf, hcf, hde, hdf, hef,
    hsub7 (hsub6 (hsub5 p1a)), hsub7 (hsub6 (hsub5 p1c)), hsub7 (hsub6 (hsub5 p1b)),
    hsub7 (hsub6 p2a), hsub7 (hsub6 p2b), hsub7 (hsub6 p2c),
    hsub7 p3a, hsub7 p3b, hsub7 p3c, p4c, ?_⟩
  · refine ⟨?_, ?_, ?_⟩
    · intro e0 he0
      rw [hcache73] at he0
      have := hC3.1 e0 he0
      exact ⟨this.1, this.2.1, by omega⟩
    · intro e0 he0 e1 he1
      rw [hcache73] at he0 he1
      exact hC3.2.1 e0 he0 e1 he1
    · intro e0 he0 e1 he1
      rw [hcache73] at he0 he1
      exact hC3.2.2 e0 he0 e1 he1
  · intro t' ht'
    obtain ⟨u1, u2, u3, v1, v2, v3, g1, g2, g3, w⟩ := ht'
    exact ⟨by omega, by omega, by omega, v1, v2, v3,
      hgm _ _ g1, hgm _ _ g2, hgm _ _ g3, by omega⟩

/- The flattened vertex list of a list of triangles. -/
def triangleVertices (ts : List Triangle) : List ℕ :=
  ts.bind fun c => [c.node_a, c.node_b, c.node_c]

/-- C5: on a valid triangle, `subdivide` returns exactly the four
children `(D, B, E)`, `(A, D, F)`, `(F, E, C)`, `(D, E, F)` in that
order, where D, E, F are the (possibly cached) midpoints requested for
A–B, B–C, A–C in that order; the four children's vertex multiset is
`{A, B, C}` plus three copies each of D, E, F; and constructing the
children establishes the D–E, D–F, E–F adjacency edges (both
directions). -/
theorem c5_subdivide_children (s : GState) (t : Triangle)
    (hE : EdgesOK s) (hC : CacheOK s) (hT : TriOK s t) :
    ∃ (d e f : ℕ) (s₁ s₂ s₃ s' : GState),
      create_new_node s t.node_a t.node_b = .ok (d, s₁) ∧
      create_new_node s₁ t.node_b t.node_c = .ok (e, s₂) ∧
      create_new_node s₂ t.node_a t.node_c = .ok (f, s₃) ∧
      Triangle.subdivide s t =
        .ok ([⟨s.nextTid, d, t.node_b, e⟩, ⟨s.nextTid + 1, t.node_a, d, f⟩,
              ⟨s.nextTid + 2, f, e, t.node_c⟩, ⟨s.nextTid + 3, d, e, f⟩], s') ∧
      ((triangleVertices
          [⟨s.nextTid, d, t.node_b, e⟩, ⟨s.nextTid + 1, t.node_a, d, f⟩,
           ⟨s.nextTid + 2, f, e, t.node_c⟩, ⟨s.nextTid + 3, d, e, f⟩] : List ℕ) : Multiset ℕ) =
        ({t.node_a, t.node_b, t.node_c} : Multiset ℕ) + 3 • ({d, e, f} : Multiset ℕ) ∧
      (d, e) ∈ s'.edges ∧ (e, d) ∈ s'.edges ∧ (d, f) ∈ s'.edges ∧ (f, d) ∈ s'.edges ∧
      (e, f) ∈ s'.edges ∧ (f, e) ∈ s'.edges := by
  obtain ⟨d, e, f, s₁, s₂, s₃, s', hcr1, hcr2, hcr3, hsubd, hE', hC', -, -, -, -, -,
    -, -, -, -, -, -, -, -, -, -, -, hde, -, -, hdf, -, -, -, hef, -⟩ :=
    subdivide_spec s t hE hC hT
  refine ⟨d, e, f, s₁, s₂, s₃, s', hcr1, hcr2, hcr3, hsubd, ?_,
    hde, hE'.1.1 _ hde, hdf, hE'.1.1 _ hdf, hef, hE'.1.1 _ hef⟩
  show ((([d, t.node_b, e, t.node_a, d, f, f, e, t.node_c, d, e, f] : List ℕ)) : Multiset ℕ) = _
  simp only [Multiset.insert_eq_cons, ← Multiset.cons_coe, Multiset.coe_nil,
    ← Multiset.singleton_add]
  abel

/- Concrete data for the C5 witness: the freshly created seed triangle
on nodes 1, 2, 3. -/
def c5WitS : GState :=
  ⟨3, 1, {(1, 2), (2, 1), (1, 3), (3, 1), (2, 3), (3, 2)}, []⟩

def c5WitT : Triangle := ⟨0, 1, 2, 3⟩

/-- Witness for C5 on the concrete seed triangle. -/
theorem c5_subdivide_children_witness :
    (EdgesOK c5WitS ∧ CacheOK c5WitS ∧ TriOK c5WitS c5WitT) ∧
    (∃ (d e f : ℕ) (s₁ s₂ s₃ s' : GState),
      create_new_node c5WitS c5WitT.node_a c5WitT.node_b = .ok (d, s₁) ∧
      create_new_node s₁ c5WitT.node_b c5WitT.node_c = .ok (e, s₂) ∧
      create_new_node s₂ c5WitT.node_a c5WitT.node_c = .ok (f, s₃) ∧
      Triangle.subdivide c5WitS c5WitT =
        .ok ([⟨c5WitS.nextTid, d, c5WitT.node_b, e⟩,
              ⟨c5WitS.nextTid + 1, c5WitT.node_a, d, f⟩,
              ⟨c5WitS.nextTid + 2, f, e, c5WitT.node_c⟩,
              ⟨c5WitS.nextTid + 3, d, e, f⟩], s') ∧
      ((triangleVertices
          [⟨c5WitS.nextTid, d, c5WitT.node_b, e⟩,
           ⟨c5WitS.nextTid + 1, c5WitT.node_a, d, f⟩,
           ⟨c5WitS.nextTid + 2, f, e, c5WitT.node_c⟩,
           ⟨c5WitS.nextTid + 3, d, e, f⟩] : List ℕ) : Multiset ℕ) =
        ({c5WitT.node_a, c5WitT.node_b, c5WitT.node_c} : Multiset ℕ) +
          3 • ({d, e, f} : Multiset ℕ) ∧
      (d, e) ∈ s'.edges ∧ (e, d) ∈ s'.edges ∧ (d, f) ∈ s'.edges ∧ (f, d) ∈ s'.edges ∧
      (e, f) ∈ s'.edges ∧ (f, e) ∈ s'.edges) :=
  ⟨⟨by decide, by decide, by decide⟩,
   c5_subdivide_children c5WitS c5WitT (by decide) (by decide) (by decide)⟩

/- What a queue element must be for the expansion loop: an actual
triangle (a list element would fail the `.subdivide` lookup), valid in
the current state. -/
def ItemOK (s : GState) : Item → Prop
  | .tri t => TriOK s t
  | .list _ => False

instance (s : GState) (it : Item) : Decidable (ItemOK s it) := by
  cases it with
  | tri t => exact inferInstanceAs (Decidable (TriOK s t))
  | list ts => exact inferInstanceAs (Decidable False)

/- Object identity of a queue element (0 for the impossible list case). -/
def itemTid : Item → ℕ
  | .tri t => t.tid
  | .list _ => 0

lemma TriOK.tid_lt (s : GState) (t : Triangle) (h : TriOK s t) : t.tid < s.nextTid :=
  h.2.2.2.2.2.2.2.2.2

lemma expandLoop_spec (k : ℕ) : ∀ (s : GState) (q : FIFO) (acc : List Triangle),
    EdgesOK s → CacheOK s →
    (∀ it ∈ q.items, ItemOK s it) →
    (q.items.map itemTid).Nodup →
    (∀ t0 ∈ acc, t0.tid < s.nextTid) →
    (∀ it ∈ q.items, ∀ t0 ∈ acc, itemTid it ≠ t0.tid) →
    (q.items = [] → k = 0) →
    ∃ (s' : GState) (q' : FIFO) (sub : List Triangle),
      expandLoop k s q acc = .ok (s', q', acc ++ sub) ∧
      q'.items.length = q.items.length + 3 * k ∧
      (∀ it ∈ q'.items, ItemOK s' it) ∧
      (∀ t0 ∈ acc ++ sub, t0.tid < s'.nextTid) ∧
      (∀ it ∈ q'.items, ∀ t0 ∈ acc ++ sub, itemTid it ≠ t0.tid) := by
  induction k with
  | zero =>
      intro s q acc hE hC hQ hN hA hD hne
      exact ⟨s, q, [], by simp [expandLoop], by omega, hQ,
        by simpa using hA, by simpa using hD⟩
  | succ k ih =>
      intro s q acc hE hC hQ hN hA hD hne
      cases hqi : q.items with
      | nil => exact absurd (hne hqi) (Nat.succ_ne_zero k)
      | cons it rest =>
          have hitOK : ItemOK s it := hQ it (by rw [hqi]; exact List.mem_cons_self _ _)
          cases it with
          | list ts => exact False.elim hitOK
          | tri t =>
              have hT : TriOK s t := hitOK
              obtain ⟨d, e, f, s₁, s₂, s₃, s', hcr1, hcr2, hcr3, hsubd, hE', hC', hnile,
                htid', hd, he, hf, had, hbd, hbe, hce, haf, hcf, hde, hdf, hef,
                m1, m2, m3, m4, m5, m6, m7, m8, m9, m10, hpres⟩ := subdivide_spec s t hE hC hT
              have hT1 : TriOK s' (⟨s.nextTid, d, t.node_b, e⟩ : Triangle) := by
                refine ⟨hd, ?_, he, ?_, hde, ?_, Or.inl m1, Or.inl m2, Or.inl m3, ?_⟩
                · show t.node_b ≤ s'.nextId
                  have := hT.2.1
                  omega
                · show d ≠ t.node_b
                  omega
                · show t.node_b ≠ e
                  omega
                · show s.nextTid < s'.nextTid
                  omega
              have hT2 : TriOK s' (⟨s.nextTid + 1, t.node_a, d, f⟩ : Triangle) := by
                refine ⟨?_, hd, hf, ?_, ?_, hdf, Or.inl m4, Or.inl m6, Or.inl m5, ?_⟩
                · show t.node_a ≤ s'.nextId
                  have := hT.1
                  omega
                · show t.node_a ≠ d
                  omega
                · show t.node_a ≠ f
                  omega
                · show s.nextTid + 1 < s'.nextTid
                  omega
              have hT3 : TriOK s' (⟨s.nextTid + 2, f, e, t.node_c⟩ : Triangle) := by
                refine ⟨hf, he, ?_, fun h => hef h.symm, ?_, ?_,
                  Or.inl m7, Or.inl m9, Or.inl m8, ?_⟩
                · show t.node_c ≤ s'.nextId
                  have := hT.2.2.1
                  omega
                · show f ≠ t.node_c
                  omega
                · show e ≠ t.node_c
                  omega
                · show s.nextTid + 2 < s'.nextTid
                  omega
              have hT4 : TriOK s' (⟨s.nextTid + 3, d, e, f⟩ : Triangle) := by
                refine ⟨hd, he, hf, hde, hdf, hef,
                  Or.inl m3, Or.inl m10, Or.inl m6, ?_⟩
                show s.nextTid + 3 < s'.nextTid
                omega
              have hdq : q.dequeue = .ok (Item.tri t, ⟨rest⟩) := by
                unfold FIFO.dequeue
                rw [hqi]
              have hstep : expandLoop (k + 1) s q acc =
                  expandLoop k s'
                    ⟨rest ++ [Item.tri ⟨s.nextTid, d, t.node_b, e⟩,
                      Item.tri ⟨s.nextTid + 1, t.node_a, d, f⟩,
                      Item.tri ⟨s.nextTid + 2, f, e, t.node_c⟩,
                      Item.tri ⟨s.nextTid + 3, d, e, f⟩]⟩ (acc ++ [t]) := by
                simp only [expandLoop, hdq, hsubd, exceptBind_ok]
                rfl
              rw [hqi] at hN
              simp only [List.map_cons] at hN
              have hheadnot : (itemTid (Item.tri t)) ∉ rest.map itemTid :=
                (List.nodup_cons.mp hN).1
              have hrestnd : (rest.map itemTid).Nodup := (List.nodup_cons.mp hN).2
              have hrestlt : ∀ it' ∈ rest, itemTid it' < s.nextTid := by
                intro it' hmem
                have hok := hQ it' (by rw [hqi]; exact List.mem_cons_of_mem _ hmem)
                cases it' with
                | tri t'' => exact TriOK.tid_lt s t'' hok
                | list ts => exact False.elim hok
              have hacclt : ∀ t0 ∈ acc, t0.tid < s.nextTid := hA
              obtain ⟨s'', q'', sub', heq, hlen, hQ'', hA'', hD''⟩ :=
                ih s'
                  ⟨rest ++ [Item.tri ⟨s.nextTid, d, t.node_b, e⟩,
                    Item.tri ⟨s.nextTid + 1, t.node_a, d, f⟩,
                    Item.tri ⟨s.nextTid + 2, f, e, t.node_c⟩,
                    Item.tri ⟨s.nextTid + 3, d, e, f⟩]⟩
                  (acc ++ [t]) hE' hC'
                  (by
                    intro it' hmem
                    rcases List.mem_append.mp hmem with h | h
                    · have hok := hQ it' (by rw [hqi]; exact List.mem_cons_of_mem _ h)
                      cases it' with
                      | tri t'' => exact hpres t'' hok
                      | list ts => exact False.elim hok
                    · simp only [List.mem_cons, List.not_mem_nil, or_false] at h
                      rcases h with h | h | h | h
                      · rw [h]; exact hT1
                      · rw [h]; exact hT2
                      · rw [h]; exact hT3
                      · rw [h]; exact hT4)
                  (by
                    rw [List.map_append]
                    refine List.Nodup.append hrestnd ?_ ?_
                    · simp [itemTid]
                    · intro x hx1 hx2
                      simp only [List.mem_map] at hx1
                      obtain ⟨it', hit', hxeq⟩ := hx1
                      have := hrestlt it' hit'
                      simp [itemTid] at hx2
                      omega)
                  (by
                    intro t0 hmem
                    rcases List.mem_append.mp hmem with h | h
                    · have := hacclt t0 h
                      omega
                    · simp only [List.mem_singleton] at h
                      rw [h]
                      have := TriOK.tid_lt s t hT
                      omega)
                  (by
                    intro it' hmem t0 hmem0
                    rcases List.mem_append.mp hmem with h | h
                    · rcases List.mem_append.mp hmem0 with h0 | h0
                      · exact hD it' (by rw [hqi]; exact List.mem_cons_of_mem _ h) t0 h0
                      · simp only [List.mem_singleton] at h0
                        rw [h0]
                        intro hc
                        exact hheadnot (by
                          rw [show itemTid (Item.tri t) = t.tid from rfl, ← hc]
                          exact List.mem_map_of_mem itemTid h)
                    · have hbig : s.nextTid ≤ itemTid it' := by
                        simp only [List.mem_cons, List.not_mem_nil, or_false] at h
                        rcases h with h | h | h | h <;> rw [h] <;> simp [itemTid]
                      rcases List.mem_append.mp hmem0 with h0 | h0
                      · have := hacclt t0 h0
                        omega
                      · simp only [List.mem_singleton] at h0
                        rw [h0]
                        have := TriOK.tid_lt s t hT
                        omega)
                  (by intro habs; simp at habs)
              refine ⟨s'', q'', t :: sub', ?_, ?_, hQ'', ?_, ?_⟩
              · rw [hstep, heq]
                rw [show (acc ++ [t]) ++ sub' = acc ++ t :: sub' by
                  rw [List.append_assoc]; rfl]
              · simp at hlen ⊢
                omega
              · intro t0 hmem
                apply hA'' t0
                rw [show (acc ++ [t]) ++ sub' = acc ++ t :: sub' by
                  rw [List.append_assoc]; rfl]
                exact hmem
              · intro it' hmem t0 hmem0
                apply hD'' it' hmem t0
                rw [show (acc ++ [t]) ++ sub' = acc ++ t :: sub' by
                  rw [List.append_assoc]; rfl]
                exact hmem0

lemma three_dvd_pow_four_sub_one (depth : ℕ) : 3 ∣ 4 ^ depth - 1 := by
  induction depth with
  | zero => simp
  | succ d ih =>
      obtain ⟨c, hc⟩ := ih
      have h4 : 0 < 4 ^ d := pow_pos (by norm_num) d
      refine ⟨4 * c + 1, ?_⟩
      rw [pow_succ]
      omega

lemma expansion_count_arith (depth : ℕ) : 1 + 3 * ((4 ^ depth - 1) / 3) = 4 ^ depth := by
  obtain ⟨c, hc⟩ := three_dvd_pow_four_sub_one depth
  have h4 : 0 < 4 ^ depth := pow_pos (by norm_num) depth
  rw [hc, Nat.mul_div_cancel_left c (by norm_num)]
  omega

/-- C3: starting from a queue holding exactly one valid seed triangle,
running exactly `(4^depth - 1) / 3` iterations of (dequeue, subdivide,
enqueue the 4 children) succeeds — in particular no iteration ever
dequeues from an empty queue (that would surface as the IndexError
value, contradicting the `.ok` result) — and leaves the queue holding
exactly `4^depth` items, all of them triangles, none of which is one of
the triangles that were dequeued and subdivided (`sub` is exactly the
list of subdivided triangles, in dequeue order). -/
theorem c3_expansion_leaves_leaves (depth : ℕ) (s : GState) (q : FIFO) (t0 : Triangle)
    (hq : q.items = [Item.tri t0])
    (hE : EdgesOK s) (hC : CacheOK s) (hT : TriOK s t0) :
    ∃ (s' : GState) (q' : FIFO) (sub : List Triangle),
      expandLoop ((4 ^ depth - 1) / 3) s q [] = .ok (s', q', sub) ∧
      q'.items.length = 4 ^ depth ∧
      (∀ it ∈ q'.items, ∃ t, it = Item.tri t) ∧
      (∀ it ∈ q'.items, ∀ t ∈ sub, it ≠ Item.tri t) := by
  obtain ⟨s', q', sub, heq, hlen, hQ', hA', hD'⟩ :=
    expandLoop_spec ((4 ^ depth - 1) / 3) s q [] hE hC
      (by
        intro it h
        rw [hq] at h
        simp only [List.mem_singleton] at h
        rw [h]
        exact hT)
      (by rw [hq]; simp)
      (by intro t1 h; cases h)
      (by intro it h t1 h1; cases h1)
      (by
        intro habs
        rw [hq] at habs
        cases habs)
  refine ⟨s', q', sub, heq, ?_, ?_, ?_⟩
  · rw [hlen, hq]
    simp
    exact expansion_count_arith depth
  · intro it hmem
    have := hQ' it hmem
    cases it with
    | tri t => exact ⟨t, rfl⟩
    | list ts => exact False.elim this
  · intro it hmem t htsub
    intro hceq
    have hne := hD' it hmem t htsub
    exact hne (by rw [hceq]; rfl)

/- Concrete data for the C3 witness: the seed triangle on nodes
1, 2, 3 queued alone, depth 1. -/
def c3WitS : GState :=
  ⟨3, 1, {(1, 2), (2, 1), (1, 3), (3, 1), (2, 3), (3, 2)}, []⟩

def c3WitT : Triangle := ⟨0, 1, 2, 3⟩

def c3WitQ : FIFO := ⟨[Item.tri c3WitT]⟩

/-- Witness for C3 at depth 1 on the concrete seed configuration. -/
theorem c3_expansion_leaves_leaves_witness :
    (c3WitQ.items = [Item.tri c3WitT] ∧
     EdgesOK c3WitS ∧ CacheOK c3WitS ∧ TriOK c3WitS c3WitT) ∧
    (∃ (s' : GState) (q' : FIFO) (sub : List Triangle),
      expandLoop ((4 ^ 1 - 1) / 3) c3WitS c3WitQ [] = .ok (s', q', sub) ∧
      q'.items.length = 4 ^ 1 ∧
      (∀ it ∈ q'.items, ∃ t, it = Item.tri t) ∧
      (∀ it ∈ q'.items, ∀ t ∈ sub, it ≠ Item.tri t)) :=
  ⟨⟨rfl, by decide, by decide, by decide⟩,
   c3_expansion_leaves_leaves 1 c3WitS c3WitQ c3WitT rfl (by decide) (by decide) (by decide)⟩
